import Mathlib

/-!
Verification of the Truth mutation harness.

The repository models an executable as a `Zoon`: a byte sequence supporting
bit-flip point mutation and byte-range deletion (`zoon.py`), plus a process
runner classifying execution outcomes into a 4-tuple result (exercised by
`t/test_run.py`).  Helpers `utils.to_bytes`, `utils.toggle_bit_in_byte` and
`run.run` are not part of the sources at hand and are modelled from the spec
(and constrained by the repository's tests where those speak).
-/

/-- Modelled from the spec: `utils.toggle_bit_in_byte` is not among the
sources; the spec describes the point mutation as XOR with the single one-bit
mask of weight `2 ^ bit` inside the target byte. -/
def toggle_bit_in_byte (bit : Nat) (byte : Nat) : Nat :=
  byte ^^^ (1 <<< bit)

/-- Numeric value of one bit character: `'1'` counts 1, anything else 0. -/
def bitVal (c : Char) : Nat := if c = '1' then 1 else 0

/-- Value of a group of bit characters read most-significant bit first. -/
def bitsToByte (bits : List Char) : Nat :=
  bits.foldl (fun acc c => 2 * acc + bitVal c) 0

/-- Modelled from the spec: `utils.to_bytes` is not among the sources; the
spec says each consecutive group of 8 characters is packed, most-significant
bit first, into one byte, in order.  (The final catch-all arm is unreachable
for inputs whose length is a multiple of 8.) -/
def packBits : List Char → List Nat
  | c0 :: c1 :: c2 :: c3 :: c4 :: c5 :: c6 :: c7 :: rest =>
      bitsToByte [c0, c1, c2, c3, c4, c5, c6, c7] :: packBits rest
  | [] => []
  | rest => [bitsToByte rest]

/-- The Entity (`Zoon`): its state observable by the claims is the byte
sequence `self.__byteseq`, an array of unsigned bytes. -/
structure Zoon where
  byteseq : List Nat
deriving DecidableEq

/-- Length in bits (`Zoon.__len__`): `len(self.__byteseq) * 8`. -/
def Zoon.lenBits (z : Zoon) : Nat := 8 * z.byteseq.length

/-- Construction from a bit-literal (`Zoon.__init__`, `str` branch): asserts
the alphabet is contained in 0/1, then packs the bits; the requirement that
the length be a multiple of 8 is Modelled from the spec, since it lives in
the missing `utils.to_bytes` (`InvalidArgument` otherwise). -/
def zoonFromBits (s : String) : Option Zoon :=
  if (∀ c ∈ s.data, c = '0' ∨ c = '1') ∧ s.data.length % 8 = 0 then
    some ⟨packBits s.data⟩
  else
    none

/-- Point mutation (`Zoon.mutate`): `byte, bit = divmod(position, 8)`, then
the byte at index `byte` of a copy is replaced by
`toggle_bit_in_byte(7 - bit, ...)`.  The byte access raises `IndexError`
(here `none`) when the byte index is out of range. -/
def Zoon.mutate (z : Zoon) (position : Nat) : Option Zoon :=
  let byte := position / 8
  let bit := position % 8
  match z.byteseq[byte]? with
  | none => none
  | some b => some ⟨z.byteseq.set byte (toggle_bit_in_byte (7 - bit) b)⟩

/-- Byte-range deletion (`Zoon.delete`): the mutant keeps
`byteseq[:start] + byteseq[stop:]` of a copy of the receiver. -/
def Zoon.delete (z : Zoon) (start stop : Nat) : Zoon :=
  ⟨z.byteseq.take start ++ z.byteseq.drop stop⟩

/-! ### Heap-level model of the copy-on-mutate discipline

Python `array.array` objects live on a heap and are mutated in place; a
`Zoon` owns one such array.  To express that `mutate` and `delete` never
touch the receiver's storage, we model the heap as a list of byte arrays
addressed by index.  `Zoon(self)` allocates a fresh cell holding a copy of
the receiver's bytes, and all writes go to that fresh cell. -/

/-- Heap-level `Zoon.mutate`: `mutant = Zoon(self)` allocates a fresh array
copying the receiver's bytes; the single-byte update then writes the mutant's
cell in place.  The receiver's cell is never written. -/
def mutateS (store : List (List Nat)) (ref position : Nat) :
    Option (List (List Nat) × Nat) :=
  match store[ref]? with
  | none => none
  | some arr =>
    match arr[position / 8]? with
    | none => none
    | some b =>
        some ((store ++ [arr]).set store.length
          (arr.set (position / 8) (toggle_bit_in_byte (7 - position % 8) b)),
          store.length)

/-- Heap-level `Zoon.delete`: `mutant = Zoon(self)` allocates a fresh cell
copying the receiver's bytes; the `byteseq` setter then rebinds the mutant's
cell to the concatenation of the two slices.  The receiver's cell is never
written. -/
def deleteS (store : List (List Nat)) (ref start stop : Nat) :
    Option (List (List Nat) × Nat) :=
  match store[ref]? with
  | none => none
  | some arr =>
    some ((store ++ [arr]).set store.length (arr.take start ++ arr.drop stop),
      store.length)

/-! ### The process runner -/

/-- Outcome of attempting to execute one command: the process ran to
completion with an exit code, captured stdout and captured stderr; or the
executable could not be launched at all; or the time budget ran out. -/
inductive ProcOutcome where
  | completed (exitCode : Nat) (stdout : String) (stderr : String)
  | launchFailed (path : String)
  | timedOut
deriving DecidableEq

/-- The normalized 4-tuple result:
`(exit_code, status_kind, stdout_text, error_detail)`. -/
abbrev RunResult := Nat × String × String × String

/-- Modelled from the spec: the launch-failure detail text of the missing
`run.run`, a "No such file or directory" message referencing the missing
path (the tests show the strerror form of `FileNotFoundError`). -/
def errno2Message (path : String) : String :=
  "[Errno 2] No such file or directory: " ++ path

/-- Modelled from the spec: `run.run` is not among the sources.
Classification of a process outcome into the 4-tuple, following spec section
4.2, with one exception forced by the repository's own tests: on the
non-zero-exit branch, `test_run_fail` requires the captured error stream in
the fourth field, so the model keeps it instead of discarding it. -/
def runClassify : ProcOutcome → RunResult
  | .completed code out err =>
      if code = 0 then (0, "success", out, "") else (code, "calledprocesserror", "", err)
  | .launchFailed path => (2, "filenotfounderror", "", errno2Message path)
  | .timedOut => (124, "timeoutexpired", "", "")

/-- Modelled from the spec: `run.run` with its wall-clock timeout, for a
command that needs `runTime` seconds and would then complete with the given
exit code and streams.  If the command does not finish within the timeout,
the runner reports the fixed code 124, independent of the process itself. -/
def runWithTimeout (runTime exitCode : Nat) (out err : String)
    (timeout : Nat) : RunResult :=
  if timeout < runTime then runClassify .timedOut
  else runClassify (.completed exitCode out err)

/-! ### Helper lemmas -/

lemma list_set_of_getElem? {α : Type} (l : List α) (i : Nat) (b : α)
    (h : l[i]? = some b) : l.set i b = l := by
  induction l generalizing i with
  | nil => simp at h
  | cons a t ih =>
    cases i with
    | zero => simp_all
    | succ j =>
      simp only [List.getElem?_cons_succ] at h
      simp [List.set, ih j h]

lemma div8_lt_of_lt_lenBits {z : Zoon} {p : Nat} (h : p < z.lenBits) :
    p / 8 < z.byteseq.length := by
  unfold Zoon.lenBits at h
  omega

/-- The heap-level operations compute exactly the pure `Zoon` operations in
the freshly allocated cell. -/
lemma mutateS_models (store : List (List Nat)) (ref p : Nat)
    (arr : List Nat) (h : store[ref]? = some arr) :
    mutateS store ref p =
      (Zoon.mutate ⟨arr⟩ p).map
        (fun m => ((store ++ [arr]).set store.length m.byteseq, store.length)) := by
  unfold mutateS Zoon.mutate
  simp only [h]
  cases arr[p / 8]? <;> simp

/-! ### Claims about the process runner -/

/-- Claim C1 counterexample: a process that starts and exits with status 2
while writing to its error stream (as `ls` does on a missing path in
`test_run_fail`): the fourth field of the result is the captured error
stream, not the empty string the claim requires. -/
theorem runClassify_nonzero_discards_stderr_cex :
    runClassify (.completed 2 "" "No such file or directory\n") ≠
      (2, "calledprocesserror", "", "") := by
  decide

/-- Claim C1 (amended): for every command whose process starts and exits with
a non-zero status code, the runner returns
`(that exit code, calledprocesserror, "", captured stderr)`: the stdout field
is emptied, and the fourth field carries the captured error stream — which is
the empty string exactly when the process wrote nothing to stderr, as with
`false` in `test_run_test_false`. -/
theorem runClassify_nonzero (code : Nat) (out err : String) (h : code ≠ 0) :
    runClassify (.completed code out err) =
      (code, "calledprocesserror", "", err) := by
  simp [runClassify, h]

/-- Witness for `runClassify_nonzero` at the `test_run_test_false` input. -/
theorem runClassify_nonzero_witness :
    runClassify (.completed 1 "" "") = (1, "calledprocesserror", "", "") :=
  runClassify_nonzero 1 "" "" (by decide)

/-- Claim C6: for every command naming an executable path that cannot be
launched at all, the runner returns exit code 2 (the same fixed code whatever
the path), status kind `filenotfounderror`, empty stdout, and an error
detail referencing the missing path (the path occurs in the detail text). -/
theorem runClassify_launch_failure (path : String) :
    runClassify (.launchFailed path) =
      (2, "filenotfounderror", "", errno2Message path) ∧
    ∃ pre, errno2Message path = pre ++ path :=
  ⟨rfl, "[Errno 2] No such file or directory: ", rfl⟩

/-- Claim C7: a command whose execution does not complete within the timeout
yields exactly `(124, timeoutexpired, "", "")` — the 124 independent of the
process's own exit code — and the same command run with a timeout at least
its run time (one that exits 0, such as `sleep`) yields status `success`. -/
theorem runWithTimeout_classification (runTime exitCode : Nat)
    (out err : String) (timeout : Nat) :
    (timeout < runTime →
      runWithTimeout runTime exitCode out err timeout =
        (124, "timeoutexpired", "", "")) ∧
    (runTime ≤ timeout → exitCode = 0 →
      runWithTimeout runTime exitCode out err timeout =
        (0, "success", out, "")) := by
  constructor
  · intro h
    simp [runWithTimeout, runClassify, h]
  · intro h h0
    simp [runWithTimeout, runClassify, h0, Nat.not_lt.mpr h]

/-- Witness for `runWithTimeout_classification`: `sleep 2` under the default
timeout of 1 second times out; under a timeout of 3 seconds it succeeds
(`test_run_timeout`, `test_run_no_timeout`). -/
theorem runWithTimeout_classification_witness :
    runWithTimeout 2 0 "" "" 1 = (124, "timeoutexpired", "", "") ∧
    runWithTimeout 2 0 "" "" 3 = (0, "success", "", "") :=
  ⟨(runWithTimeout_classification 2 0 "" "" 1).1 (by decide),
   (runWithTimeout_classification 2 0 "" "" 3).2 (by decide) rfl⟩

/-! ### Claims about deletion -/

/-- Claim C5: for an Entity of byte length `n` and `start ≤ stop ≤ n`,
`delete start stop` has byte length `n - (stop - start)` and its bytes are
the concatenation of bytes `[0, start)` and bytes `[stop, n)`. -/
theorem delete_in_range (z : Zoon) (start stop : Nat)
    (h1 : start ≤ stop) (h2 : stop ≤ z.byteseq.length) :
    (z.delete start stop).byteseq.length =
      z.byteseq.length - (stop - start) ∧
    (z.delete start stop).byteseq =
      z.byteseq.take start ++ z.byteseq.drop stop := by
  refine ⟨?_, rfl⟩
  simp only [Zoon.delete, List.length_append, List.length_take,
    List.length_drop]
  omega

/-- Witness for `delete_in_range` on a three-byte Entity. -/
theorem delete_in_range_witness :
    ((⟨[10, 20, 30]⟩ : Zoon).delete 1 2).byteseq.length = 3 - (2 - 1) ∧
    ((⟨[10, 20, 30]⟩ : Zoon).delete 1 2).byteseq =
      ([10, 20, 30] : List Nat).take 1 ++ ([10, 20, 30] : List Nat).drop 2 :=
  delete_in_range ⟨[10, 20, 30]⟩ 1 2 (by decide) (by decide)

/-- Claim C10: `delete` performs no bounds validation and is total: a `stop`
past the byte length behaves as `stop = n` (clamping), and with
`start > stop` it still returns an Entity, in which the bytes of the
overlapping region `[stop, min start n)` — written below as the segment
`(byteseq.drop stop).take (start - stop)` — appear twice, instead of an
error being raised. -/
theorem delete_unchecked (z : Zoon) (start stop : Nat) :
    (z.byteseq.length ≤ stop →
      z.delete start stop = z.delete start z.byteseq.length) ∧
    (stop < start →
      (z.delete start stop).byteseq =
        z.byteseq.take stop ++ (z.byteseq.drop stop).take (start - stop) ++
          ((z.byteseq.drop stop).take (start - stop) ++
            z.byteseq.drop start)) := by
  constructor
  · intro h
    unfold Zoon.delete
    rw [List.drop_eq_nil_of_le h, List.drop_eq_nil_of_le (Nat.le_refl _)]
  · intro h
    unfold Zoon.delete
    have hstart : start = stop + (start - stop) := by omega
    calc z.byteseq.take start ++ z.byteseq.drop stop
        = z.byteseq.take (stop + (start - stop)) ++ z.byteseq.drop stop := by
          rw [← hstart]
      _ = (z.byteseq.take stop ++ (z.byteseq.drop stop).take (start - stop))
            ++ z.byteseq.drop stop := by
          rw [List.take_add]
      _ = (z.byteseq.take stop ++ (z.byteseq.drop stop).take (start - stop))
            ++ ((z.byteseq.drop stop).take (start - stop) ++
              (z.byteseq.drop stop).drop (start - stop)) := by
          rw [List.take_append_drop]
      _ = z.byteseq.take stop ++ (z.byteseq.drop stop).take (start - stop) ++
            ((z.byteseq.drop stop).take (start - stop) ++
              z.byteseq.drop start) := by
          rw [List.drop_drop, ← hstart]

/-- Witness for `delete_unchecked`: on bytes `[10, 20, 30]`, a `stop` of 5
clamps, and `delete 2 1` duplicates byte 20 instead of failing. -/
theorem delete_unchecked_witness :
    ((⟨[10, 20, 30]⟩ : Zoon).delete 1 5 = (⟨[10, 20, 30]⟩ : Zoon).delete 1 3) ∧
    ((⟨[10, 20, 30]⟩ : Zoon).delete 2 1).byteseq =
      ([10, 20, 30] : List Nat).take 1 ++
        (([10, 20, 30] : List Nat).drop 1).take (2 - 1) ++
        ((([10, 20, 30] : List Nat).drop 1).take (2 - 1) ++
          ([10, 20, 30] : List Nat).drop 2) :=
  ⟨(delete_unchecked ⟨[10, 20, 30]⟩ 1 5).1 (by decide),
   (delete_unchecked ⟨[10, 20, 30]⟩ 2 1).2 (by decide)⟩

/-! ### Claims about point mutation -/

/-- Claim C2: at a valid position `p`, mutate returns a new Entity equal to
the receiver except that in byte `p / 8` the single bit of weight
`2 ^ (7 - p % 8)` is inverted (XOR with that one-bit mask); and concretely,
the Entity built from bit-literal "01100001" (one byte 0x61) yields the
single byte 0xE1 after `mutate 0`. -/
theorem mutate_flips_one_bit (z : Zoon) (p : Nat) (h : p < z.lenBits) :
    (∃ z2, z.mutate p = some z2 ∧
      z2.byteseq.length = z.byteseq.length ∧
      (∀ i, i ≠ p / 8 → z2.byteseq[i]? = z.byteseq[i]?) ∧
      ∃ b, z.byteseq[p / 8]? = some b ∧
        z2.byteseq[p / 8]? = some (b ^^^ 2 ^ (7 - p % 8))) ∧
    (zoonFromBits "01100001").bind (fun z0 => z0.mutate 0) =
      some ⟨[0xE1]⟩ := by
  refine ⟨?_, by decide⟩
  have hb := div8_lt_of_lt_lenBits h
  cases hg : z.byteseq[p / 8]? with
  | none => rw [List.getElem?_eq_none_iff] at hg; omega
  | some b =>
    refine ⟨⟨z.byteseq.set (p / 8) (toggle_bit_in_byte (7 - p % 8) b)⟩,
      ?_, ?_, ?_, ?_⟩
    · simp [Zoon.mutate, hg]
    · simp
    · intro i hi
      exact List.getElem?_set_ne (Ne.symm hi)
    · refine ⟨b, rfl, ?_⟩
      rw [List.getElem?_set_self hb]
      simp [toggle_bit_in_byte, Nat.one_shiftLeft]

/-- Witness for `mutate_flips_one_bit` at the one-byte Entity 0x61,
position 0. -/
theorem mutate_flips_one_bit_witness :
    (∃ z2, (⟨[0x61]⟩ : Zoon).mutate 0 = some z2 ∧
      z2.byteseq.length = (⟨[0x61]⟩ : Zoon).byteseq.length ∧
      (∀ i, i ≠ 0 / 8 → z2.byteseq[i]? = (⟨[0x61]⟩ : Zoon).byteseq[i]?) ∧
      ∃ b, (⟨[0x61]⟩ : Zoon).byteseq[0 / 8]? = some b ∧
        z2.byteseq[0 / 8]? = some (b ^^^ 2 ^ (7 - 0 % 8))) ∧
    (zoonFromBits "01100001").bind (fun z0 => z0.mutate 0) =
      some ⟨[0xE1]⟩ :=
  mutate_flips_one_bit ⟨[0x61]⟩ 0 (by decide)

/-- Claim C3: applying mutate twice at the same valid position yields an
Entity whose byte sequence equals the original's (point mutation is an
involution). -/
theorem mutate_involution (z : Zoon) (p : Nat) (h : p < z.lenBits) :
    (z.mutate p).bind (fun m => m.mutate p) = some z := by
  have hb := div8_lt_of_lt_lenBits h
  cases hg : z.byteseq[p / 8]? with
  | none => rw [List.getElem?_eq_none_iff] at hg; omega
  | some b =>
    have hset : (z.byteseq.set (p / 8)
        (toggle_bit_in_byte (7 - p % 8) b))[p / 8]? =
        some (toggle_bit_in_byte (7 - p % 8) b) :=
      List.getElem?_set_self (by simpa using hb)
    simp only [Zoon.mutate, hg, hset, Option.some_bind]
    rw [List.set_set]
    have htwice : toggle_bit_in_byte (7 - p % 8)
        (toggle_bit_in_byte (7 - p % 8) b) = b := by
      simp only [toggle_bit_in_byte]
      exact Nat.xor_cancel_right _ b
    rw [htwice, list_set_of_getElem? _ _ _ hg]

/-- Witness for `mutate_involution` on the one-byte Entity 0x61. -/
theorem mutate_involution_witness :
    ((⟨[0x61]⟩ : Zoon).mutate 3).bind (fun m => m.mutate 3) =
      some ⟨[0x61]⟩ :=
  mutate_involution ⟨[0x61]⟩ 3 (by decide)

/-- Claim C9: for every position at least the bit length, mutate fails at
the byte access — it returns no Entity, neither wrapping nor clamping. -/
theorem mutate_out_of_range (z : Zoon) (p : Nat) (h : z.lenBits ≤ p) :
    z.mutate p = none := by
  have hlen : z.byteseq.length ≤ p / 8 := by
    unfold Zoon.lenBits at h
    omega
  simp [Zoon.mutate, List.getElem?_eq_none hlen]

/-- Witness for `mutate_out_of_range`: position 8 on a one-byte Entity. -/
theorem mutate_out_of_range_witness : (⟨[0x61]⟩ : Zoon).mutate 8 = none :=
  mutate_out_of_range ⟨[0x61]⟩ 8 (by decide)

/-! ### The copy-on-mutate frame claim -/

/-- Claim C4: neither mutate nor delete modifies the receiver in place: each
writes only the freshly allocated cell of the heap, so on success the
receiver's cell holds the same bytes afterwards and the returned reference
is distinct from the receiver's. -/
theorem mutate_delete_frame (store : List (List Nat)) (ref : Nat) :
    (∀ p st r, mutateS store ref p = some (st, r) →
      st[ref]? = store[ref]? ∧ r ≠ ref) ∧
    (∀ start stop st r, deleteS store ref start stop = some (st, r) →
      st[ref]? = store[ref]? ∧ r ≠ ref) := by
  cases harr : store[ref]? with
  | none =>
    constructor
    · intro p st r hrun
      simp [mutateS, harr] at hrun
    · intro start stop st r hrun
      simp [deleteS, harr] at hrun
  | some arr =>
    have href : ref < store.length := by
      cases Nat.lt_or_ge ref store.length with
      | inl hlt => exact hlt
      | inr hge => rw [List.getElem?_eq_none hge] at harr; cases harr
    constructor
    · intro p st r hrun
      cases hbyte : arr[p / 8]? with
      | none => simp [mutateS, harr, hbyte] at hrun
      | some b =>
        simp only [mutateS, harr, hbyte, Option.some.injEq,
          Prod.mk.injEq] at hrun
        obtain ⟨hst, hr⟩ := hrun
        subst hst hr
        refine ⟨?_, by omega⟩
        rw [List.getElem?_set_ne (by omega), List.getElem?_append_left href]
        exact harr
    · intro start stop st r hrun
      simp only [deleteS, harr, Option.some.injEq, Prod.mk.injEq] at hrun
      obtain ⟨hst, hr⟩ := hrun
      subst hst hr
      refine ⟨?_, by omega⟩
      rw [List.getElem?_set_ne (by omega), List.getElem?_append_left href]
      exact harr

/-- Witness for `mutate_delete_frame`: a heap holding one array `[97]`; after
mutating bit 0 the heap is `[[97], [225]]` and after deleting byte 0 the
heap is `[[97], []]`; cell 0 is untouched in both. -/
theorem mutate_delete_frame_witness :
    (([[97], [225]] : List (List Nat))[0]? =
      ([[97]] : List (List Nat))[0]? ∧ (1 : Nat) ≠ 0) ∧
    (([[97], []] : List (List Nat))[0]? =
      ([[97]] : List (List Nat))[0]? ∧ (1 : Nat) ≠ 0) :=
  ⟨(mutate_delete_frame [[97]] 0).1 0 [[97], [225]] 1 (by decide),
   (mutate_delete_frame [[97]] 0).2 0 1 [[97], []] 1 (by decide)⟩

/-! ### Claim about bit-literal construction -/

/-- The bit of a bit-literal at index `k`, as 0 or 1 (0 past the end). -/
def bitAt : List Char → Nat → Nat
  | [], _ => 0
  | c :: _, 0 => bitVal c
  | _ :: rest, k + 1 => bitAt rest k

/-- The byte the spec prescribes for group `i`: the 8 characters at indices
`8*i .. 8*i+7`, packed most-significant bit first. -/
def specByte (cs : List Char) (i : Nat) : Nat :=
  128 * bitAt cs (8 * i) + 64 * bitAt cs (8 * i + 1) +
    32 * bitAt cs (8 * i + 2) + 16 * bitAt cs (8 * i + 3) +
    8 * bitAt cs (8 * i + 4) + 4 * bitAt cs (8 * i + 5) +
    2 * bitAt cs (8 * i + 6) + bitAt cs (8 * i + 7)

theorem packBits_length :
    ∀ (cs : List Char), cs.length % 8 = 0 →
      (packBits cs).length = cs.length / 8
  | [], _ => rfl
  | c0 :: c1 :: c2 :: c3 :: c4 :: c5 :: c6 :: c7 :: rest, hmod => by
      have h8 : rest.length % 8 = 0 := by
        simp only [List.length_cons] at hmod
        omega
      have ih := packBits_length rest h8
      simp only [packBits, List.length_cons, ih]
      omega
  | [c], hmod => by simp at hmod
  | [c, d], hmod => by simp at hmod
  | [c, d, e], hmod => by simp at hmod
  | [c, d, e, f], hmod => by simp at hmod
  | [c, d, e, f, g], hmod => by simp at hmod
  | [c, d, e, f, g, k], hmod => by simp at hmod
  | [c, d, e, f, g, k, m], hmod => by simp at hmod

theorem packBits_getElem? :
    ∀ (cs : List Char), cs.length % 8 = 0 → ∀ (i : Nat),
      i < cs.length / 8 → (packBits cs)[i]? = some (specByte cs i)
  | [], _, i, hi => by simp at hi
  | c0 :: c1 :: c2 :: c3 :: c4 :: c5 :: c6 :: c7 :: rest, _, 0, _ => by
      simp only [packBits, List.getElem?_cons_zero, Option.some.injEq]
      have h0 : specByte (c0 :: c1 :: c2 :: c3 :: c4 :: c5 :: c6 :: c7 :: rest)
          0 =
          128 * bitVal c0 + 64 * bitVal c1 + 32 * bitVal c2 + 16 * bitVal c3 +
            8 * bitVal c4 + 4 * bitVal c5 + 2 * bitVal c6 + bitVal c7 := rfl
      rw [h0]
      simp only [bitsToByte, List.foldl]
      ring
  | c0 :: c1 :: c2 :: c3 :: c4 :: c5 :: c6 :: c7 :: rest, hmod, i + 1, hi => by
      have h8 : rest.length % 8 = 0 := by
        simp only [List.length_cons] at hmod
        omega
      have hi8 : i < rest.length / 8 := by
        simp only [List.length_cons] at hi
        omega
      have ih := packBits_getElem? rest h8 i hi8
      have hspec : specByte (c0 :: c1 :: c2 :: c3 :: c4 :: c5 :: c6 :: c7 ::
          rest) (i + 1) = specByte rest i := rfl
      simp only [packBits, List.getElem?_cons_succ, hspec, ih]
  | [c], hmod, _, _ => by simp at hmod
  | [c, d], hmod, _, _ => by simp at hmod
  | [c, d, e], hmod, _, _ => by simp at hmod
  | [c, d, e, f], hmod, _, _ => by simp at hmod
  | [c, d, e, f, g], hmod, _, _ => by simp at hmod
  | [c, d, e, f, g, k], hmod, _, _ => by simp at hmod
  | [c, d, e, f, g, k, m], hmod, _, _ => by simp at hmod

/-- Claim C8: construction from a bit-literal fails whenever the string has
a character outside 0/1 or a length not a multiple of 8; on every string
satisfying both constraints it succeeds, and byte `i` of the result packs
the 8 characters at indices `8*i .. 8*i+7`, most-significant bit first. -/
theorem zoonFromBits_spec (s : String) :
    ((¬ (∀ c ∈ s.data, c = '0' ∨ c = '1') ∨ s.data.length % 8 ≠ 0) →
      zoonFromBits s = none) ∧
    ((∀ c ∈ s.data, c = '0' ∨ c = '1') → s.data.length % 8 = 0 →
      ∃ z, zoonFromBits s = some z ∧
        z.byteseq.length = s.data.length / 8 ∧
        ∀ i, i < s.data.length / 8 →
          z.byteseq[i]? = some (specByte s.data i)) := by
  constructor
  · intro h
    unfold zoonFromBits
    rw [if_neg]
    tauto
  · intro h1 h2
    refine ⟨⟨packBits s.data⟩, ?_, ?_, ?_⟩
    · unfold zoonFromBits
      rw [if_pos ⟨h1, h2⟩]
    · exact packBits_length s.data h2
    · intro i hi
      exact packBits_getElem? s.data h2 i hi

/-- Witness for `zoonFromBits_spec`: the literal "0a" is rejected (bad
alphabet) and "01100001" is accepted with its single packed byte. -/
theorem zoonFromBits_spec_witness :
    zoonFromBits "0a" = none ∧
    ∃ z, zoonFromBits "01100001" = some z ∧
      z.byteseq.length = "01100001".data.length / 8 ∧
      ∀ i, i < "01100001".data.length / 8 →
        z.byteseq[i]? = some (specByte "01100001".data i) :=
  ⟨(zoonFromBits_spec "0a").1 (by decide),
   (zoonFromBits_spec "01100001").2 (by decide) (by decide)⟩
